import Mathlib

set_option maxRecDepth 100000

/-!
Verification of the time-synchronization and adaptive-environment engine of the
ESP32 GPS clock firmware (`src/GPS-CLOCK-V2.ino`), as a shallow embedding.

Conventions of the embedding:
* machine bytes / ints become `Nat` (all quantities here are nonnegative and
  stay far below any overflow boundary, except where noted);
* the single-precision brightness computation is embedded exactly: every value
  appearing in it is a dyadic rational with at most 24 fractional bits, so the
  whole computation is carried out on `Nat`s scaled by 2^24, with IEEE-754
  round-to-nearest-even to 24 significant bits made explicit (`round24`);
* stateful loop bodies become pure state-transition functions;
* the preference store becomes a total map `String → Option PrefValue`.
-/

/-! ## Brightness controller (loop1, animation-tick block)

The firmware code is

  if (autoBright)
  {
    byte previousBrightness = currentBrightness;
    isDark = lux <= 1;
    if (isDark && offInDark)
    {
      if (!menuOpen)
        currentBrightness = 0;
    }
    else
    {
      float alpha = 0.7;
      float tempBrightness = currentBrightness;
      tempBrightness = tempBrightness * alpha + targetBrightness * (1.0 - alpha);
      currentBrightness = (byte)tempBrightness;
    }
    if (currentBrightness != previousBrightness)
      ledcWrite(LCD_LIGHT, currentBrightness);
  }

with `currentBrightness`, `targetBrightness` of type `byte`.  In IEEE-754
arithmetic the EMA line evaluates as follows:
* `alpha = (float)0.7 = 11744051 / 2^24` exactly;
* `1.0 - alpha` is computed in `double` and is exact: `5033165 / 2^24`;
* `tempBrightness * alpha` is a `float` multiplication: the exact product
  `c * 11744051 / 2^24` is rounded to 24 significant bits (one rounding);
* `targetBrightness * (1.0 - alpha)` is a `double` multiplication of an
  integer `t ≤ 255` by `5033165 / 2^24`: exact (at most 33 significant bits);
* the addition is performed in `double`: both addends have at most 24
  fractional bits and the sum is below 2^9, hence at most 33 significant
  bits - exact, no rounding;
* the assignment back to the `float` variable rounds the sum to 24
  significant bits (the second and last rounding);
* the `(byte)` cast truncates toward zero (the value is within [0, 256)).

Scaling everything by 2^24 turns this into exact natural-number arithmetic.
-/

/-- Round `n / m` to the nearest integer, ties to even, returning the result
rescaled by `m`; `h` is the half-way remainder `m / 2`.  Used with literal
powers of two `m = 2^s`, `h = 2^(s-1)` to express IEEE-754 rounding of a value
with `s` excess significand bits. -/
def roundHE (m h n : Nat) : Nat :=
  (if h < n % m then n / m + 1
   else if n % m < h then n / m
   else if (n / m) % 2 = 0 then n / m else n / m + 1) * m

/-- IEEE-754 round-to-nearest-even of a nonnegative scaled value to 24
significant bits: `n` represents the real number `n / 2^24`, and the result is
the scaled value a binary32 float would store.  Values below 2^24 already fit
in 24 bits (for this computation they are far above the subnormal range) and
are returned unchanged.  The excess-bit count is dispatched over explicit
ranges: every value arising in the brightness computation is below 2^32, i.e.
has at most 32 significant bits, so at most 8 bits are rounded away. -/
def round24 (n : Nat) : Nat :=
  if n < 16777216 then n
  else if n < 33554432 then roundHE 2 1 n
  else if n < 67108864 then roundHE 4 2 n
  else if n < 134217728 then roundHE 8 4 n
  else if n < 268435456 then roundHE 16 8 n
  else if n < 536870912 then roundHE 32 16 n
  else if n < 1073741824 then roundHE 64 32 n
  else if n < 2147483648 then roundHE 128 64 n
  else roundHE 256 128 n

/-- One evaluation of the EMA line of the animation tick, embedded exactly:
`(byte)(c * (float)0.7 + t * (1.0 - (float)0.7))` for byte inputs `c`, `t`,
scaled by 2^24. -/
def emaStep (c t : Nat) : Nat :=
  round24 (round24 (c * 11744051) + t * 5033165) / 16777216

/-- Iterated EMA updates at a fixed target brightness. -/
def emaIter (t n c : Nat) : Nat :=
  (fun x => emaStep x t)^[n] c

/-- Rounding to 24 significant bits moves a value (of at most 32 significant
bits, as in this computation) by at most half an ulp, i.e. at most 128 scaled
units. -/
theorem round24_err (n : Nat) :
    n ≤ round24 n + 128 ∧ round24 n ≤ n + 128 := by
  unfold round24
  split_ifs
  · omega
  all_goals unfold roundHE
  all_goals split_ifs <;> omega

/-- The float EMA result brackets the exact-arithmetic truncation
`⌊(7c + 3t)/10⌋`: it equals it whenever `10 ∤ 7c + 3t`, and is never more than
one below it. -/
theorem emaStep_sandwich (c t : Nat) (hc : c ≤ 255) (ht : t ≤ 255) :
    emaStep c t ≤ (7 * c + 3 * t) / 10 ∧ (7 * c + 3 * t) / 10 ≤ emaStep c t + 1 ∧
      ((7 * c + 3 * t) % 10 ≠ 0 → emaStep c t = (7 * c + 3 * t) / 10) := by
  have h1 := round24_err (c * 11744051)
  have h2 := round24_err (round24 (c * 11744051) + t * 5033165)
  unfold emaStep
  omega

/-- At steady state (`target = current`) the float EMA is exact: a tick leaves
the value unchanged (checked for every byte value). -/
theorem emaStep_diag : ∀ v : Nat, v ≤ 255 → emaStep v v = v := by decide

/-- Below the target the EMA never overshoots and never decreases. -/
theorem emaStep_below (c t : Nat) (hct : c ≤ t) (ht : t ≤ 255) :
    c ≤ emaStep c t ∧ emaStep c t ≤ t := by
  rcases Nat.eq_or_lt_of_le hct with rfl | hlt
  · have hd := emaStep_diag c ht
    omega
  · have h := emaStep_sandwich c t (by omega) ht
    omega

/-- Above the target the EMA never undershoots and strictly decreases. -/
theorem emaStep_above (c t : Nat) (htc : t ≤ c) (hc : c ≤ 255) :
    t ≤ emaStep c t ∧ emaStep c t ≤ c ∧ (t < c → emaStep c t < c) := by
  rcases Nat.eq_or_lt_of_le htc with rfl | hlt
  · have hd := emaStep_diag t hc
    omega
  · have h := emaStep_sandwich c t (by omega) (by omega)
    omega

/-- Strict progress from below: while the value is more than 3 below the
target, a tick increases it. -/
theorem emaStep_progress (c t : Nat) (h3 : c + 3 < t) (ht : t ≤ 255) :
    c < emaStep c t := by
  have h := emaStep_sandwich c t (by omega) ht
  omega

/-- Stall zone from below: within 3 of the target the value is already a fixed
point of the tick. -/
theorem emaStep_stall (c t : Nat) (hct : c ≤ t) (h3 : t ≤ c + 3) (ht : t ≤ 255) :
    emaStep c t = c := by
  rcases Nat.eq_or_lt_of_le hct with rfl | hlt
  · have hd := emaStep_diag c ht
    omega
  · have h := emaStep_sandwich c t (by omega) ht
    omega

/-- Starting at or below the target, every iterate stays between the start and
the target. -/
theorem emaIter_below_inv (t : Nat) (ht : t ≤ 255) :
    ∀ n c, c ≤ t → c ≤ emaIter t n c ∧ emaIter t n c ≤ t := by
  intro n
  induction n with
  | zero => intro c hc; simp [emaIter]; omega
  | succ n ih =>
    intro c hc
    have hstep := emaStep_below c t hc ht
    have hrec := ih (emaStep c t) (by omega)
    have hun : emaIter t (n + 1) c = emaIter t n (emaStep c t) := by
      simp [emaIter, Function.iterate_succ_apply]
    omega

/-- Starting at or above the target, every iterate stays between the target and
the start. -/
theorem emaIter_above_inv (t : Nat) :
    ∀ n c, t ≤ c → c ≤ 255 → t ≤ emaIter t n c ∧ emaIter t n c ≤ c := by
  intro n
  induction n with
  | zero => intro c hc hc255; simp [emaIter]; omega
  | succ n ih =>
    intro c hc hc255
    have hstep := emaStep_above c t hc hc255
    have hrec := ih (emaStep c t) (by omega) (by omega)
    have hun : emaIter t (n + 1) c = emaIter t n (emaStep c t) := by
      simp [emaIter, Function.iterate_succ_apply]
    omega

/-- Monotonicity from below: the iterates are nondecreasing. -/
theorem emaIter_below_mono (t n c : Nat) (hc : c ≤ t) (ht : t ≤ 255) :
    emaIter t n c ≤ emaIter t (n + 1) c := by
  have hinv := emaIter_below_inv t ht n c hc
  have hstep := emaStep_below (emaIter t n c) t (by omega) ht
  have hun : emaIter t (n + 1) c = emaStep (emaIter t n c) t := by
    simp [emaIter, Function.iterate_succ_apply']
  omega

/-- Monotonicity from above: the iterates are nonincreasing. -/
theorem emaIter_above_mono (t n c : Nat) (hc : t ≤ c) (hc255 : c ≤ 255) :
    emaIter t (n + 1) c ≤ emaIter t n c := by
  have hinv := emaIter_above_inv t n c hc hc255
  have hstep := emaStep_above (emaIter t n c) t (by omega) (by omega)
  have hun : emaIter t (n + 1) c = emaStep (emaIter t n c) t := by
    simp [emaIter, Function.iterate_succ_apply']
  omega

/-- From below, after `k` ticks with `t ≤ c + k + 3` the sequence has settled
on a fixed point that is at most 3 below the target. -/
theorem emaIter_below_reach (t : Nat) (ht : t ≤ 255) :
    ∀ k c, c ≤ t → t ≤ c + k + 3 →
      emaStep (emaIter t k c) t = emaIter t k c ∧
        t ≤ emaIter t k c + 3 ∧ emaIter t k c ≤ t := by
  intro k
  induction k with
  | zero =>
    intro c hc hk
    have hfix := emaStep_stall c t hc (by omega) ht
    simp [emaIter]
    omega
  | succ k ih =>
    intro c hc hk
    have hun : emaIter t (k + 1) c = emaIter t k (emaStep c t) := by
      simp [emaIter, Function.iterate_succ_apply]
    rcases Nat.lt_or_ge (c + 3) t with hprog | hstall
    · have hstep := emaStep_below c t hc ht
      have hpr := emaStep_progress c t (by omega) ht
      have hrec := ih (emaStep c t) (by omega) (by omega)
      rw [hun]
      exact hrec
    · have hfix := emaStep_stall c t hc hstall ht
      have hrec := ih c hc (by omega)
      rw [hun, hfix]
      exact hrec

/-- From above, after `k` ticks with `c ≤ t + k` the target has been reached
exactly. -/
theorem emaIter_above_reach (t : Nat) (ht : t ≤ 255) :
    ∀ k c, t ≤ c → c ≤ 255 → c ≤ t + k → emaIter t k c = t := by
  intro k
  induction k with
  | zero =>
    intro c hc hc255 hk
    simp [emaIter]
    omega
  | succ k ih =>
    intro c hc hc255 hk
    have hun : emaIter t (k + 1) c = emaIter t k (emaStep c t) := by
      simp [emaIter, Function.iterate_succ_apply]
    rcases Nat.eq_or_lt_of_le hc with heq | hlt
    · have hfix := emaStep_diag c hc255
      rw [hun, ← heq] at *
      rw [hfix]
      exact ih t (by omega) (by omega) (by omega)
    · have hstep := emaStep_above c t hc hc255
      rw [hun]
      exact ih (emaStep c t) (by omega) (by omega) (by omega)

/-! ## Animation-tick state machine

The block guarded by `millis() - lastBrightnessUpdate > brightnessInterval`
in loop1 is modelled as a pure transition on the ambient state.  `lux` is the
latest light-sensor reading (a `float`, here an exact rational); the tick reads
it but never writes it - the sensor-sampling block, on its own coarser
cadence, is the only writer.  The returned `Bool` records whether the tick
performed the `ledcWrite` backlight output (the code writes the PWM only when
the new `currentBrightness` differs from the previous one). -/

structure AmbientState where
  lux : ℚ
  isDark : Bool
  currentBrightness : Nat
  targetBrightness : Nat

structure BrightSettings where
  autoBright : Bool
  offInDark : Bool
  menuOpen : Bool

/-- One animation tick of loop1 (the `if (autoBright) { ... }` block):
recomputes `isDark` from the latest lux sample, applies either the dark
override or the EMA smoothing to `currentBrightness`, and reports whether the
PWM output was written. -/
def brightnessTick (cfg : BrightSettings) (st : AmbientState) : AmbientState × Bool :=
  if cfg.autoBright then
    let previousBrightness := st.currentBrightness
    let isDark : Bool := decide (st.lux ≤ 1)
    let newCurrent : Nat :=
      if isDark && cfg.offInDark then
        if !cfg.menuOpen then 0 else st.currentBrightness
      else
        emaStep st.currentBrightness st.targetBrightness
    ({ st with isDark := isDark, currentBrightness := newCurrent },
      decide (newCurrent ≠ previousBrightness))
  else
    (st, false)

/-- Iterated animation ticks (settings and lux held fixed, as they are between
sensor samplings and menu interactions). -/
def brightnessIter (cfg : BrightSettings) (n : Nat) (st : AmbientState) : AmbientState :=
  (fun s => (brightnessTick cfg s).1)^[n] st

/-- The darkness classification used by loop1: latest lux sample at most the
fixed 1-lux threshold (`isDark = lux <= 1;`). -/
def isDarkPred (lux : ℚ) : Bool :=
  decide (lux ≤ 1)

/-- The animation tick never touches the lux sample or the target
brightness: they are owned by the sensor-sampling block. -/
theorem brightnessTick_frame (cfg : BrightSettings) (st : AmbientState) :
    (brightnessTick cfg st).1.lux = st.lux ∧
      (brightnessTick cfg st).1.targetBrightness = st.targetBrightness := by
  unfold brightnessTick
  split_ifs <;> simp

/-- A tick taken in the EMA branch: auto-brightness on and the dark override
condition `isDark && offInDark` false. -/
theorem brightnessTick_ema (cfg : BrightSettings) (st : AmbientState)
    (hauto : cfg.autoBright = true)
    (hdark : ¬(st.lux ≤ 1 ∧ cfg.offInDark = true)) :
    (brightnessTick cfg st).1.currentBrightness
        = emaStep st.currentBrightness st.targetBrightness ∧
      ((brightnessTick cfg st).2 = true ↔
        (brightnessTick cfg st).1.currentBrightness ≠ st.currentBrightness) := by
  have hcond : (decide (st.lux ≤ 1) && cfg.offInDark) = false := by
    by_cases hl : st.lux ≤ 1
    · have hoff : cfg.offInDark = false := by
        rcases Bool.eq_false_or_eq_true cfg.offInDark with ht | hf
        · exact absurd ⟨hl, ht⟩ hdark
        · exact hf
      simp [hoff]
    · simp [hl]
  simp [brightnessTick, hauto, hcond]

/-- A tick under steady state or a non-forcing override leaves the current
brightness unchanged when `current = target = v`. -/
theorem brightnessTick_steady (cfg : BrightSettings) (st : AmbientState) (v : Nat)
    (hv : v ≤ 255) (hcur : st.currentBrightness = v) (htar : st.targetBrightness = v)
    (hnoforce : ¬(st.lux ≤ 1 ∧ cfg.offInDark = true ∧ cfg.menuOpen = false)) :
    (brightnessTick cfg st).1.currentBrightness = v := by
  have hd := emaStep_diag v hv
  rcases Bool.eq_false_or_eq_true cfg.autoBright with ht | hf
  · by_cases hl : st.lux ≤ 1
    · rcases Bool.eq_false_or_eq_true cfg.offInDark with hot | hof
      · have hmenu : cfg.menuOpen = true := by
          rcases Bool.eq_false_or_eq_true cfg.menuOpen with hmt | hmf
          · exact hmt
          · exact absurd ⟨hl, hot, hmf⟩ hnoforce
        simp [brightnessTick, ht, hl, hot, hmenu, hcur]
      · simp [brightnessTick, ht, hof, hcur, htar, hd]
    · simp [brightnessTick, ht, hl, hcur, htar, hd]
  · simp [brightnessTick, hf, hcur]

/-! ## Claim theorems: brightness controller -/

/-- C4 (as stated, refuted): on the tick with state `lux = 50`, `current = 31`,
`target = 11` (auto-brightness on, dark override not applicable) the code
produces 24, while `currentBrightness*0.7 + targetBrightness*0.3` truncates to
`(7*31 + 3*11)/10 = 25`: the single-precision evaluation loses one count. -/
theorem claim_C4_counterexample :
    (brightnessTick ⟨true, false, false⟩ ⟨50, false, 31, 11⟩).1.currentBrightness = 24 ∧
      (7 * 31 + 3 * 11) / 10 = 25 := by
  decide

/-- C4 (amended): on every animation tick (auto-brightness enabled) in which
the dark override does not apply, the new `currentBrightness` is the
single-precision evaluation of `current*0.7 + target*0.3` truncated to a byte;
this equals the exact-arithmetic truncation `(7c+3t)/10` whenever `7c+3t` is
not a multiple of 10 and is never more than one below it; and the backlight
output is written exactly when the new value differs from the previous one. -/
theorem claim_C4_amended (cfg : BrightSettings) (st : AmbientState)
    (hauto : cfg.autoBright = true)
    (hdark : ¬(st.lux ≤ 1 ∧ cfg.offInDark = true))
    (hc : st.currentBrightness ≤ 255) (ht : st.targetBrightness ≤ 255) :
    (brightnessTick cfg st).1.currentBrightness
        = emaStep st.currentBrightness st.targetBrightness ∧
      (brightnessTick cfg st).1.currentBrightness
          ≤ (7 * st.currentBrightness + 3 * st.targetBrightness) / 10 ∧
      (7 * st.currentBrightness + 3 * st.targetBrightness) / 10
          ≤ (brightnessTick cfg st).1.currentBrightness + 1 ∧
      ((7 * st.currentBrightness + 3 * st.targetBrightness) % 10 ≠ 0 →
        (brightnessTick cfg st).1.currentBrightness
          = (7 * st.currentBrightness + 3 * st.targetBrightness) / 10) ∧
      ((brightnessTick cfg st).2 = true ↔
        (brightnessTick cfg st).1.currentBrightness ≠ st.currentBrightness) := by
  have hema := brightnessTick_ema cfg st hauto hdark
  have hsand := emaStep_sandwich st.currentBrightness st.targetBrightness hc ht
  refine ⟨hema.1, ?_, ?_, ?_, hema.2⟩ <;> omega

/-- C4 witness instance: lux 50, current 100, target 200 (no override). -/
theorem claim_C4_witness :
    (brightnessTick ⟨true, false, false⟩ ⟨50, false, 100, 200⟩).1.currentBrightness
        = emaStep 100 200 ∧
      (brightnessTick ⟨true, false, false⟩ ⟨50, false, 100, 200⟩).1.currentBrightness
          ≤ (7 * 100 + 3 * 200) / 10 ∧
      (7 * 100 + 3 * 200) / 10
          ≤ (brightnessTick ⟨true, false, false⟩ ⟨50, false, 100, 200⟩).1.currentBrightness + 1 ∧
      ((7 * 100 + 3 * 200) % 10 ≠ 0 →
        (brightnessTick ⟨true, false, false⟩ ⟨50, false, 100, 200⟩).1.currentBrightness
          = (7 * 100 + 3 * 200) / 10) ∧
      ((brightnessTick ⟨true, false, false⟩ ⟨50, false, 100, 200⟩).2 = true ↔
        (brightnessTick ⟨true, false, false⟩ ⟨50, false, 100, 200⟩).1.currentBrightness ≠ 100) := by
  exact claim_C4_amended ⟨true, false, false⟩ ⟨50, false, 100, 200⟩ rfl
    (by norm_num) (by norm_num) (by norm_num)

/-- C5: whenever the latest lux sample classifies as dark, the off-in-dark
setting is enabled and no menu session is open, the very next animation tick
(auto-brightness enabled) forces `currentBrightness` to 0, regardless of
`targetBrightness` and bypassing the EMA. -/
theorem claim_C5 (cfg : BrightSettings) (st : AmbientState)
    (hauto : cfg.autoBright = true) (hl : st.lux ≤ 1)
    (hoff : cfg.offInDark = true) (hmenu : cfg.menuOpen = false) :
    (brightnessTick cfg st).1.currentBrightness = 0 := by
  simp [brightnessTick, hauto, hl, hoff, hmenu]

/-- C5 witness instance: lux 0, current 200, target 150, settings dark-off
enabled and menu closed. -/
theorem claim_C5_witness :
    (brightnessTick ⟨true, true, false⟩ ⟨0, false, 200, 150⟩).1.currentBrightness = 0 := by
  exact claim_C5 ⟨true, true, false⟩ ⟨0, false, 200, 150⟩ rfl (by norm_num) rfl rfl

/-- C7 (as stated, refuted): from `currentBrightness = 7` with fixed
`targetBrightness = 10`, one tick leaves the value at 7 (a fixed point of the
float EMA), and after 255 further ticks it is still 7 - more than one count
away from the target, so the sequence never reaches the target within integer
rounding. -/
theorem emaIter_fix (t c : Nat) (hfix : emaStep c t = c) : ∀ n, emaIter t n c = c := by
  intro n
  induction n with
  | zero => simp [emaIter]
  | succ n ih =>
    have hun : emaIter t (n + 1) c = emaIter t n (emaStep c t) := by
      simp [emaIter, Function.iterate_succ_apply]
    rw [hun, hfix]
    exact ih

theorem claim_C7_counterexample :
    emaStep 7 10 = 7 ∧ emaIter 10 255 7 = 7 ∧ 7 + 1 < 10 := by
  have hfix : emaStep 7 10 = 7 := by decide
  exact ⟨hfix, emaIter_fix 10 7 hfix 255, by norm_num⟩

/-- C7 (amended): for every start `c ∈ [0,255]` and fixed target
`t ∈ [0,255]`, the tick sequence moves monotonically toward the target while
staying between start and target, and within 255 ticks settles on a fixed
point of the tick; from above the target is reached exactly, while from below
the settled value may stop short of the target by up to 3 counts. -/
theorem claim_C7_amended (c t : Nat) (hc : c ≤ 255) (ht : t ≤ 255) :
    (c ≤ t → ∀ n, emaIter t n c ≤ emaIter t (n + 1) c ∧
      c ≤ emaIter t n c ∧ emaIter t n c ≤ t) ∧
    (t ≤ c → ∀ n, emaIter t (n + 1) c ≤ emaIter t n c ∧
      t ≤ emaIter t n c ∧ emaIter t n c ≤ c) ∧
    emaStep (emaIter t 255 c) t = emaIter t 255 c ∧
    (c ≤ t → t ≤ emaIter t 255 c + 3 ∧ emaIter t 255 c ≤ t) ∧
    (t ≤ c → emaIter t 255 c = t) := by
  refine ⟨?_, ?_, ?_, ?_, ?_⟩
  · intro hct n
    have hmono := emaIter_below_mono t n c hct ht
    have hinv := emaIter_below_inv t ht n c hct
    omega
  · intro htc n
    have hmono := emaIter_above_mono t n c htc hc
    have hinv := emaIter_above_inv t n c htc hc
    omega
  · rcases Nat.le_total c t with hct | htc
    · exact (emaIter_below_reach t ht 255 c hct (by omega)).1
    · have hreach := emaIter_above_reach t ht 255 c htc hc (by omega)
      rw [hreach]
      exact emaStep_diag t ht
  · intro hct
    have hreach := emaIter_below_reach t ht 255 c hct (by omega)
    omega
  · intro htc
    exact emaIter_above_reach t ht 255 c htc hc (by omega)

/-- C7 witness instance: start 0, target 10 - settles on a tick fixed point
within 3 of the target. -/
theorem claim_C7_witness :
    emaStep (emaIter 10 255 0) 10 = emaIter 10 255 0 ∧
      10 ≤ emaIter 10 255 0 + 3 ∧ emaIter 10 255 0 ≤ 10 := by
  have h := claim_C7_amended 0 10 (by norm_num) (by norm_num)
  exact ⟨h.2.2.1, (h.2.2.2.1 (by norm_num)).1, (h.2.2.2.1 (by norm_num)).2⟩

/-- C8: at steady state (`currentBrightness = targetBrightness = v`, for any
byte `v`), every further animation tick leaves `currentBrightness` equal to
`v`, provided the dark override is not forcing the backlight off (the
situation C5 describes, which sets it to 0 instead). -/
theorem claim_C8 (cfg : BrightSettings) (st : AmbientState) (v : Nat)
    (hv : v ≤ 255) (hcur : st.currentBrightness = v) (htar : st.targetBrightness = v)
    (hnoforce : ¬(st.lux ≤ 1 ∧ cfg.offInDark = true ∧ cfg.menuOpen = false)) :
    ∀ n, (brightnessIter cfg n st).currentBrightness = v := by
  intro n
  induction n generalizing st with
  | zero => simpa [brightnessIter] using hcur
  | succ n ih =>
    have hun : brightnessIter cfg (n + 1) st = brightnessIter cfg n (brightnessTick cfg st).1 := by
      simp [brightnessIter, Function.iterate_succ_apply]
    have hframe := brightnessTick_frame cfg st
    have hstep := brightnessTick_steady cfg st v hv hcur htar hnoforce
    rw [hun]
    exact ih (brightnessTick cfg st).1 hstep (by rw [hframe.2]; exact htar)
      (by rw [hframe.1]; exact hnoforce)

/-- C8 witness instance: lux 50 (not dark), steady value 120, five ticks. -/
theorem claim_C8_witness :
    (brightnessIter ⟨true, true, false⟩ 5 ⟨50, false, 120, 120⟩).currentBrightness = 120 := by
  exact claim_C8 ⟨true, true, false⟩ ⟨50, false, 120, 120⟩ 120 (by norm_num) rfl rfl
    (by norm_num) 5

/-- C9 (as stated, refuted): with auto-brightness disabled the animation tick
never recomputes `isDark`; after a tick on a state with `lux = 0` (dark by the
threshold predicate) the flag still reads `false`. -/
theorem claim_C9_counterexample :
    (brightnessTick ⟨false, true, false⟩ ⟨0, false, 100, 100⟩).1.isDark = false ∧
      isDarkPred 0 = true := by
  decide

/-- C9 (amended): after every animation tick with auto-brightness enabled,
`isDark` equals the pure threshold predicate `lux ≤ 1` of the latest
illuminance sample; and (for any settings) the tick keeps `currentBrightness`
within [0,255]. -/
theorem claim_C9_amended (cfg : BrightSettings) (st : AmbientState)
    (hc : st.currentBrightness ≤ 255) (ht : st.targetBrightness ≤ 255) :
    (cfg.autoBright = true → (brightnessTick cfg st).1.isDark = isDarkPred st.lux) ∧
      (brightnessTick cfg st).1.currentBrightness ≤ 255 := by
  have hsand := emaStep_sandwich st.currentBrightness st.targetBrightness hc ht
  constructor
  · intro hauto
    simp [brightnessTick, hauto, isDarkPred]
  · unfold brightnessTick
    rcases Bool.eq_false_or_eq_true cfg.autoBright with hauto | hauto
    · simp only [hauto, if_true]
      split_ifs <;> (try simp) <;> omega
    · simp [hauto, hc]

/-- C9 witness instance: auto-brightness on, lux 0 - the flag flips to dark
and the brightness stays a byte. -/
theorem claim_C9_witness :
    (true = true → (brightnessTick ⟨true, true, false⟩ ⟨0, false, 100, 100⟩).1.isDark
        = isDarkPred 0) ∧
      (brightnessTick ⟨true, true, false⟩ ⟨0, false, 100, 100⟩).1.currentBrightness ≤ 255 := by
  exact claim_C9_amended ⟨true, true, false⟩ ⟨0, false, 100, 100⟩ (by norm_num) (by norm_num)

/-! ## Alarm scheduler (loop1, hourly/half-hourly block)

The firmware code, executed every ~50 ms iteration of loop1:

  static bool alarmTriggered = false;
  if (!(isDark && muteDark) && years > 2024)
  {
    int beeps = 0;
    if (minutes == 0 && hourlyAlarm)        beeps = 1;
    else if (minutes == 30 && halfHourlyAlarm) beeps = 2;
    if (beeps > 0)
    {
      if (!alarmTriggered) { simpleBeep(beeps, ...); alarmTriggered = true; }
    }
    else
      alarmTriggered = false;
  }

One scheduler tick is modelled as a transition on the `alarmTriggered` flag,
returning the number of beeps sounded on that tick (0 when no beep fired). -/

structure AlarmCfg where
  isDark : Bool
  muteDark : Bool
  hourlyAlarm : Bool
  halfHourlyAlarm : Bool
  years : Nat

/-- The beep count selected for the current minute (`beeps` in the code). -/
def alarmBeeps (cfg : AlarmCfg) (minutes : Nat) : Nat :=
  if minutes = 0 ∧ cfg.hourlyAlarm = true then 1
  else if minutes = 30 ∧ cfg.halfHourlyAlarm = true then 2
  else 0

/-- One scheduler tick: new `alarmTriggered` flag and beeps fired this tick. -/
def alarmStep (cfg : AlarmCfg) (minutes : Nat) (triggered : Bool) : Bool × Nat :=
  if ¬(cfg.isDark = true ∧ cfg.muteDark = true) ∧ 2024 < cfg.years then
    if 0 < alarmBeeps cfg minutes then
      if triggered = false then (true, alarmBeeps cfg minutes) else (true, 0)
    else (false, 0)
  else (triggered, 0)

/-- Run the scheduler over a list of observed minute values (one per tick),
returning the final flag and the total number of ticks on which a beep
fired. -/
def alarmRun (cfg : AlarmCfg) : List Nat → Bool → Bool × Nat
  | [], triggered => (triggered, 0)
  | m :: ms, triggered =>
    let step := alarmStep cfg m triggered
    let rest := alarmRun cfg ms step.1
    (rest.1, (if 0 < step.2 then 1 else 0) + rest.2)

/-- Firing totals add over a split of the tick sequence, threading the flag. -/
theorem alarmRun_append (cfg : AlarmCfg) (l1 l2 : List Nat) (b : Bool) :
    alarmRun cfg (l1 ++ l2) b =
      ((alarmRun cfg l2 (alarmRun cfg l1 b).1).1,
        (alarmRun cfg l1 b).2 + (alarmRun cfg l2 (alarmRun cfg l1 b).1).2) := by
  induction l1 generalizing b with
  | nil => simp [alarmRun]
  | cons m ms ih =>
    simp only [List.cons_append, alarmRun, List.append_eq]
    rw [ih]
    simp [Nat.add_assoc]

/-- Over a run of ticks whose minute selects no beep (under the guard), no
beep fires and the flag ends cleared (provided at least one tick happens). -/
theorem alarmRun_quiet (cfg : AlarmCfg) (m : Nat)
    (hguard : ¬(cfg.isDark = true ∧ cfg.muteDark = true) ∧ 2024 < cfg.years)
    (hquiet : alarmBeeps cfg m = 0) :
    ∀ k b, alarmRun cfg (List.replicate k m) b = (if k = 0 then b else false, 0) := by
  intro k
  induction k with
  | zero => intro b; simp [alarmRun]
  | succ k ih =>
    intro b
    have hstep : alarmStep cfg m b = (false, 0) := by
      unfold alarmStep
      rw [if_pos hguard, hquiet]
      simp
    simp only [List.replicate_succ, alarmRun, hstep, ih false]
    rcases Nat.eq_or_lt_of_le (Nat.zero_le k) with hk | hk
    · simp [← hk]
    · have : k ≠ 0 := by omega
      simp [this]

/-- Over a run of ticks in a qualifying minute (under the guard), starting
with the flag clear, exactly one beep fires (on the first tick) and the flag
ends set. -/
theorem alarmRun_qualify (cfg : AlarmCfg) (m : Nat)
    (hguard : ¬(cfg.isDark = true ∧ cfg.muteDark = true) ∧ 2024 < cfg.years)
    (hbeeps : 0 < alarmBeeps cfg m) :
    ∀ k, 0 < k → alarmRun cfg (List.replicate k m) false = (true, 1) := by
  have hold : ∀ k, alarmRun cfg (List.replicate k m) true = (true, 0) := by
    intro k
    induction k with
    | zero => simp [alarmRun]
    | succ k ih =>
      have hstep : alarmStep cfg m true = (true, 0) := by
        unfold alarmStep
        rw [if_pos hguard, if_pos hbeeps]
        simp
      simp [List.replicate_succ, alarmRun, hstep, ih]
  intro k hk
  rcases k with _ | k
  · omega
  · have hstep : alarmStep cfg m false = (true, alarmBeeps cfg m) := by
      unfold alarmStep
      rw [if_pos hguard, if_pos hbeeps]
      simp
    simp only [List.replicate_succ, alarmRun, hstep, hold k]
    simp [hbeeps]

/-! ## Claim theorems: alarm scheduler -/

/-- C6: under the scheduler guard (not dark-muted, year plausible), (a) the
flag is set - and the beep fires - on the first tick of a qualifying minute
(minute 0 with hourly enabled, minute 30 with half-hourly enabled); (b) the
flag is cleared on any tick whose minute matches neither trigger value; and
(c) sweeping minutes 29 → 30 → 31 with half-hourly enabled fires exactly one
beep in total, none of it during the minute-29 or minute-31 ticks. -/
theorem claim_C6 (cfg : AlarmCfg)
    (hguard : ¬(cfg.isDark = true ∧ cfg.muteDark = true) ∧ 2024 < cfg.years) :
    (∀ m, (m = 0 ∧ cfg.hourlyAlarm = true) ∨ (m = 30 ∧ cfg.halfHourlyAlarm = true) →
      (alarmStep cfg m false).1 = true ∧ 0 < (alarmStep cfg m false).2) ∧
    (∀ m b, m ≠ 0 → m ≠ 30 → (alarmStep cfg m b).1 = false) ∧
    (cfg.halfHourlyAlarm = true → ∀ k mm nn, 0 < mm →
      (alarmRun cfg
        (List.replicate k 29 ++ List.replicate mm 30 ++ List.replicate nn 31) false).2 = 1 ∧
      (∀ b, (alarmRun cfg (List.replicate k 29) b).2 = 0) ∧
      (∀ b, (alarmRun cfg (List.replicate nn 31) b).2 = 0)) := by
  refine ⟨?_, ?_, ?_⟩
  · intro m hm
    have hbeeps : 0 < alarmBeeps cfg m := by
      unfold alarmBeeps
      rcases hm with ⟨rfl, hh⟩ | ⟨rfl, hh⟩ <;> simp [hh]
    unfold alarmStep
    rw [if_pos hguard, if_pos hbeeps]
    simp [hbeeps]
  · intro m b hm0 hm30
    have hbeeps : alarmBeeps cfg m = 0 := by
      unfold alarmBeeps
      simp [hm0, hm30]
    unfold alarmStep
    rw [if_pos hguard, hbeeps]
    simp
  · intro hhalf k mm nn hmm
    have hb29 : alarmBeeps cfg 29 = 0 := by simp [alarmBeeps]
    have hb31 : alarmBeeps cfg 31 = 0 := by simp [alarmBeeps]
    have hb30 : 0 < alarmBeeps cfg 30 := by simp [alarmBeeps, hhalf]
    have hq1 : alarmRun cfg (List.replicate k 29) false = (false, 0) := by
      rw [alarmRun_quiet cfg 29 hguard hb29 k false]
      simp
    have h30 := alarmRun_qualify cfg 30 hguard hb30 mm hmm
    refine ⟨?_, ?_, ?_⟩
    · rw [alarmRun_append cfg (List.replicate k 29 ++ List.replicate mm 30)
        (List.replicate nn 31) false]
      rw [alarmRun_append cfg (List.replicate k 29) (List.replicate mm 30) false]
      rw [hq1]
      simp only []
      rw [h30]
      rw [alarmRun_quiet cfg 31 hguard hb31 nn true]
      simp
    · intro b
      rw [alarmRun_quiet cfg 29 hguard hb29 k b]
    · intro b
      rw [alarmRun_quiet cfg 31 hguard hb31 nn b]

/-- C6 witness instance: guard satisfied (not dark, year 2025), half-hourly
enabled, sweep of 2 ticks at minute 29, 3 at minute 30, 2 at minute 31. -/
theorem claim_C6_witness :
    (alarmStep ⟨false, true, true, true, 2025⟩ 30 false).1 = true ∧
      0 < (alarmStep ⟨false, true, true, true, 2025⟩ 30 false).2 ∧
      (alarmStep ⟨false, true, true, true, 2025⟩ 29 true).1 = false ∧
      (alarmRun ⟨false, true, true, true, 2025⟩
        (List.replicate 2 29 ++ List.replicate 3 30 ++ List.replicate 2 31) false).2 = 1 := by
  have h := claim_C6 ⟨false, true, true, true, 2025⟩ (by norm_num)
  have ha := h.1 30 (Or.inr ⟨rfl, rfl⟩)
  have hb := h.2.1 29 true (by norm_num) (by norm_num)
  have hc := (h.2.2 rfl 2 3 2 (by norm_num)).1
  exact ⟨ha.1, ha.2, hb, hc⟩

/-! ## Time base (loop, GPS fix processing block)

On every fresh fix (`gps.time.age() < 500`) the code builds a `struct tm`
from the GPS UTC fields, converts it with `mktime`, adds the fixed IST offset
19800 s, stores the result in `currentEpoch`, and re-derives the broken-down
local fields with `localtime_r`.  The firmware never configures a timezone
(no `setenv("TZ", ...)` / `configTime`), so on the ESP32 both `mktime` and
`localtime_r` are plain UTC civil-calendar conversions; they are embedded
below as the standard days-from-civil / civil-from-days algorithms.  All GPS
dates are far past 1970, so `Nat` arithmetic suffices. -/

/-- Days since 1970-01-01 of a civil date (Gregorian calendar; valid for the
years produced by the GPS, all past 1970). -/
def daysFromCivil (y m d : Nat) : Nat :=
  (if m ≤ 2 then y - 1 else y) / 400 * 146097 +
    ((if m ≤ 2 then y - 1 else y) % 400 * 365 +
      (if m ≤ 2 then y - 1 else y) % 400 / 4 -
      (if m ≤ 2 then y - 1 else y) % 400 / 100 +
      ((153 * (if 2 < m then m - 3 else m + 9) + 2) / 5 + d - 1)) - 719468

/-- Embedding of `mktime` applied to an already-normalized `struct tm` holding
the GPS UTC calendar fields (timezone unset, hence UTC): seconds since the
epoch. -/
def mktimeUTC (y mo d h mi s : Nat) : Nat :=
  daysFromCivil y mo d * 86400 + h * 3600 + mi * 60 + s

/-- Civil date from days since 1970-01-01 (inverse calendar conversion, as
performed inside `localtime_r`): year, month, day. -/
def civilFromDays (z : Nat) : Nat × Nat × Nat :=
  let doe := (z + 719468) % 146097
  let era := (z + 719468) / 146097
  let yoe := (doe - doe / 1460 + doe / 36524 - doe / 146096) / 365
  let doy := doe - (365 * yoe + yoe / 4 - yoe / 100)
  let mp := (5 * doy + 2) / 153
  let d := doy - (153 * mp + 2) / 5 + 1
  let m := if mp < 10 then mp + 3 else mp - 9
  (yoe + era * 400 + (if m ≤ 2 then 1 else 0), m, d)

/-- The broken-down time produced by `localtime_r` for an epoch value
(timezone unset, hence UTC). -/
structure TmOut where
  year : Nat
  month : Nat
  day : Nat
  hour : Nat
  minute : Nat
  second : Nat
deriving DecidableEq

/-- Embedding of `localtime_r` (UTC): epoch seconds to broken-down civil
time. -/
def localtimeUTC (t : Nat) : TmOut :=
  { year := (civilFromDays (t / 86400)).1
    month := (civilFromDays (t / 86400)).2.1
    day := (civilFromDays (t / 86400)).2.2
    hour := t / 3600 % 24
    minute := t / 60 % 60
    second := t % 60 }

/-- The 12-hour display conversion of the fix-processing block:
`hour12 = tm_hour % 12; if (hour12 == 0) hour12 = 12;`. -/
def to12h (h : Nat) : Nat :=
  if h % 12 = 0 then 12 else h % 12

/-- The AM/PM indicator: `(tm_hour < 12) ? "AM" : "PM"`. -/
def ampmOf (h : Nat) : String :=
  if h < 12 then "AM" else "PM"

/-- A decoded GPS fix as consumed by the update block: its age in
milliseconds and the UTC calendar fields. -/
structure GpsFix where
  ageMillis : Nat
  year : Nat
  month : Nat
  day : Nat
  hour : Nat
  minute : Nat
  second : Nat
deriving DecidableEq

/-- The global time state written by the fix-processing block:
`currentEpoch` plus the display globals `days, months, years, hours, minutes,
seconds` (`hours` already holds the 12-hour form when `hour12Mode` is
enabled, exactly as the code stores it). -/
structure TimeState where
  currentEpoch : Nat
  days : Nat
  months : Nat
  years : Nat
  hours : Nat
  minutes : Nat
  seconds : Nat
deriving DecidableEq

/-- The fix-processing step of loop: a fix with `age < 500` rebuilds the
whole time state from `mktime(UTC fields) + 19800` (IST offset) and
`localtime_r`; a stale fix leaves the state untouched. -/
def applyFix (hour12Mode : Bool) (st : TimeState) (f : GpsFix) : TimeState :=
  if f.ageMillis < 500 then
    let t := mktimeUTC f.year f.month f.day f.hour f.minute f.second + 19800
    let tm := localtimeUTC t
    { currentEpoch := t
      days := tm.day
      months := tm.month
      years := tm.year
      hours := if hour12Mode then to12h tm.hour else tm.hour
      minutes := tm.minute
      seconds := tm.second }
  else
    st

/-! ## Claim theorems: time base -/

/-- C1: on every fresh fix (`ageMillis < 500`) the stored epoch is the
calendar-to-epoch conversion of the fix's UTC fields plus the fixed 19800 s
offset, and the local day/month/year/minute/second (and hour) fields are the
`localtime` components of that epoch; in particular the fix
2025-03-10 14:59:00 UTC yields local 2025-03-10 20:29:00, displayed 12-hour
value 8, PM. -/
theorem claim_C1 (mode : Bool) (st : TimeState) (f : GpsFix)
    (hfresh : f.ageMillis < 500) :
    ((applyFix mode st f).currentEpoch
        = mktimeUTC f.year f.month f.day f.hour f.minute f.second + 19800 ∧
      (applyFix mode st f).days = (localtimeUTC (applyFix mode st f).currentEpoch).day ∧
      (applyFix mode st f).months = (localtimeUTC (applyFix mode st f).currentEpoch).month ∧
      (applyFix mode st f).years = (localtimeUTC (applyFix mode st f).currentEpoch).year ∧
      (applyFix mode st f).minutes = (localtimeUTC (applyFix mode st f).currentEpoch).minute ∧
      (applyFix mode st f).seconds = (localtimeUTC (applyFix mode st f).currentEpoch).second ∧
      (applyFix mode st f).hours = (if mode
        then to12h (localtimeUTC (applyFix mode st f).currentEpoch).hour
        else (localtimeUTC (applyFix mode st f).currentEpoch).hour)) ∧
    (applyFix true ⟨0, 0, 0, 0, 0, 0, 0⟩ ⟨0, 2025, 3, 10, 14, 59, 0⟩
        = ⟨1741638540, 10, 3, 2025, 8, 29, 0⟩ ∧
      localtimeUTC 1741638540
        = ⟨2025, 3, 10, 20, 29, 0⟩ ∧
      to12h 20 = 8 ∧ ampmOf 20 = "PM") := by
  constructor
  · simp only [applyFix, if_pos hfresh]
    simp
  · refine ⟨by decide, by decide, by decide, by decide⟩

/-- C1 witness instance: the scenario fix itself, age 0. -/
theorem claim_C1_witness :
    (applyFix true ⟨0, 0, 0, 0, 0, 0, 0⟩ ⟨0, 2025, 3, 10, 14, 59, 0⟩).currentEpoch
        = mktimeUTC 2025 3 10 14 59 0 + 19800 ∧
      (applyFix true ⟨0, 0, 0, 0, 0, 0, 0⟩ ⟨0, 2025, 3, 10, 14, 59, 0⟩).days
        = (localtimeUTC (applyFix true ⟨0, 0, 0, 0, 0, 0, 0⟩
            ⟨0, 2025, 3, 10, 14, 59, 0⟩).currentEpoch).day := by
  have h := claim_C1 true ⟨0, 0, 0, 0, 0, 0, 0⟩ ⟨0, 2025, 3, 10, 14, 59, 0⟩ (by norm_num)
  exact ⟨h.1.1, h.1.2.1⟩

/-- C2: the 24-to-12-hour conversion is total and correct on [0,23]: the
result is in [1,12]; 0 and 12 map to 12; 1-11 map to themselves; 13-23 map
to the hour minus 12; and the indicator is AM exactly for hours below 12. -/
theorem claim_C2 : ∀ h : Nat, h ≤ 23 →
    (1 ≤ to12h h ∧ to12h h ≤ 12) ∧
      (h = 0 → to12h h = 12) ∧ (h = 12 → to12h h = 12) ∧
      (1 ≤ h → h ≤ 11 → to12h h = h) ∧
      (13 ≤ h → to12h h = h - 12) ∧
      (ampmOf h = "AM" ↔ h < 12) := by
  decide

/-- C2 witness instances: midnight and a PM hour. -/
theorem claim_C2_witness :
    ((1 ≤ to12h 0 ∧ to12h 0 ≤ 12) ∧
      (0 = 0 → to12h 0 = 12) ∧ (0 = 12 → to12h 0 = 12) ∧
      (1 ≤ 0 → 0 ≤ 11 → to12h 0 = 0) ∧
      (13 ≤ 0 → to12h 0 = 0 - 12) ∧
      (ampmOf 0 = "AM" ↔ 0 < 12)) ∧
    ((1 ≤ to12h 20 ∧ to12h 20 ≤ 12) ∧
      (20 = 0 → to12h 20 = 12) ∧ (20 = 12 → to12h 20 = 12) ∧
      (1 ≤ 20 → 20 ≤ 11 → to12h 20 = 20) ∧
      (13 ≤ 20 → to12h 20 = 20 - 12) ∧
      (ampmOf 20 = "AM" ↔ 20 < 12)) := by
  exact ⟨claim_C2 0 (by norm_num), claim_C2 20 (by norm_num)⟩

/-- C3: a stale fix (`ageMillis ≥ 500`) leaves the whole time state - epoch
and every local calendar/clock field - unchanged. -/
theorem claim_C3 (mode : Bool) (st : TimeState) (f : GpsFix)
    (hstale : 500 ≤ f.ageMillis) :
    applyFix mode st f = st := by
  unfold applyFix
  rw [if_neg]
  omega

/-- C3 witness instance: a fix with age 600 ms leaves the previously stored
local time 2025-03-10 20:29:00 untouched. -/
theorem claim_C3_witness :
    applyFix true ⟨1741638540, 10, 3, 2025, 8, 29, 0⟩ ⟨600, 2025, 3, 10, 15, 0, 0⟩
      = ⟨1741638540, 10, 3, 2025, 8, 29, 0⟩ := by
  exact claim_C3 true ⟨1741638540, 10, 3, 2025, 8, 29, 0⟩ ⟨600, 2025, 3, 10, 15, 0, 0⟩
    (by norm_num)

/-! ## Settings store (Preferences), first-boot defaults and RESET ALL

`setup()` applies an explicit default exactly once per key (existence-checked
via `pref.isKey`, written via `pref.put*` if absent, then read back); the
confirmed `RESET: ALL` menu branch (function `resetAll`) rewrites a fixed set
of keys unconditionally and then restarts the device.  The store is embedded
as a total map from key strings to optional typed values. -/

inductive PrefValue where
  | pInt : Int → PrefValue
  | pBool : Bool → PrefValue
  | pStr : String → PrefValue
deriving DecidableEq

def PrefStore : Type :=
  String → Option PrefValue

/-- `pref.put*`: unconditional write of one key. -/
def prefPut (s : PrefStore) (k : String) (v : PrefValue) : PrefStore :=
  fun q => if q = k then some v else s q

/-- The `if (!pref.isKey(k)) pref.put*(k, v);` idiom of `setup()`. -/
def putIfAbsent (s : PrefStore) (k : String) (v : PrefValue) : PrefStore :=
  match s k with
  | some _ => s
  | none => prefPut s k v

/-- The sequence of first-boot defaults applied by `setup()` (in program
order). -/
def setupDefaults (s : PrefStore) : PrefStore :=
  putIfAbsent (putIfAbsent (putIfAbsent (putIfAbsent (putIfAbsent (putIfAbsent
    (putIfAbsent (putIfAbsent (putIfAbsent s
      "lcd_bright" (PrefValue.pInt 250))
      "autoBright" (PrefValue.pBool true))
      "hourlyAlarm" (PrefValue.pBool true))
      "halfHourlyAlarm" (PrefValue.pBool true))
      "useWifi" (PrefValue.pBool false))
      "muteDark" (PrefValue.pBool true))
      "buzzVol" (PrefValue.pInt 255))
      "offInDark" (PrefValue.pBool true))
      "hour12Mode" (PrefValue.pBool true)

/-- The writes performed by the confirmed `RESET: ALL` branch of `resetAll()`
(in program order). -/
def resetAll (s : PrefStore) : PrefStore :=
  prefPut (prefPut (prefPut (prefPut (prefPut (prefPut (prefPut (prefPut
    (prefPut (prefPut s
      "lcd_bright" (PrefValue.pInt 250))
      "autoBright" (PrefValue.pBool true))
      "hourlyAlarm" (PrefValue.pBool true))
      "halfHourlyAlarm" (PrefValue.pBool true))
      "useWifi" (PrefValue.pBool false))
      "muteDark" (PrefValue.pBool true))
      "offInDark" (PrefValue.pBool true))
      "ssid" (PrefValue.pStr ""))
      "password" (PrefValue.pStr ""))
      "buzzVol" (PrefValue.pInt 250)

/-- The keys rewritten by `RESET: ALL`. -/
def resetKeys : List String :=
  ["lcd_bright", "autoBright", "hourlyAlarm", "halfHourlyAlarm", "useWifi",
    "muteDark", "offInDark", "ssid", "password", "buzzVol"]

/-- The empty store of a first boot. -/
def emptyStore : PrefStore :=
  fun _ => none

/-! ## Claim theorems: RESET ALL frame -/

/-- C10: the confirmed RESET ALL rewrites exactly the ten keys `lcd_bright`,
`autoBright`, `hourlyAlarm`, `halfHourlyAlarm`, `useWifi`, `muteDark`,
`offInDark`, `ssid`, `password`, `buzzVol` (with the listed values); every
other key - in particular `hour12Mode` - is left unchanged; and the reset
value `buzzVol = 250` differs from the first-boot default 255 that `setup()`
installs on an empty store. -/
theorem claim_C10 (s : PrefStore) :
    resetAll s "lcd_bright" = some (PrefValue.pInt 250) ∧
      resetAll s "autoBright" = some (PrefValue.pBool true) ∧
      resetAll s "hourlyAlarm" = some (PrefValue.pBool true) ∧
      resetAll s "halfHourlyAlarm" = some (PrefValue.pBool true) ∧
      resetAll s "useWifi" = some (PrefValue.pBool false) ∧
      resetAll s "muteDark" = some (PrefValue.pBool true) ∧
      resetAll s "offInDark" = some (PrefValue.pBool true) ∧
      resetAll s "ssid" = some (PrefValue.pStr "") ∧
      resetAll s "password" = some (PrefValue.pStr "") ∧
      resetAll s "buzzVol" = some (PrefValue.pInt 250) ∧
      resetAll s "hour12Mode" = s "hour12Mode" ∧
      (∀ k, k ∉ resetKeys → resetAll s k = s k) ∧
      setupDefaults emptyStore "buzzVol" = some (PrefValue.pInt 255) ∧
      (250 : Int) ≠ 255 := by
  refine ⟨?_, ?_, ?_, ?_, ?_, ?_, ?_, ?_, ?_, ?_, ?_, ?_, ?_, ?_⟩
  case _ => simp [resetAll, prefPut]
  case _ => simp [resetAll, prefPut]
  case _ => simp [resetAll, prefPut]
  case _ => simp [resetAll, prefPut]
  case _ => simp [resetAll, prefPut]
  case _ => simp [resetAll, prefPut]
  case _ => simp [resetAll, prefPut]
  case _ => simp [resetAll, prefPut]
  case _ => simp [resetAll, prefPut]
  case _ => simp [resetAll, prefPut]
  case _ => simp [resetAll, prefPut]
  case _ =>
    intro k hk
    simp only [resetKeys, List.mem_cons, List.not_mem_nil, or_false] at hk
    push_neg at hk
    obtain ⟨h1, h2, h3, h4, h5, h6, h7, h8, h9, h10⟩ := hk
    simp [resetAll, prefPut, h1, h2, h3, h4, h5, h6, h7, h8, h9, h10]
  case _ => decide
  case _ => decide

/-- C10 witness instance: reset applied to the empty store; the frame part
checked at the untouched keys `hour12Mode` and `lcd`. -/
theorem claim_C10_witness :
    resetAll emptyStore "buzzVol" = some (PrefValue.pInt 250) ∧
      resetAll emptyStore "hour12Mode" = emptyStore "hour12Mode" ∧
      resetAll emptyStore "lcd" = emptyStore "lcd" ∧
      setupDefaults emptyStore "buzzVol" = some (PrefValue.pInt 255) := by
  have h := claim_C10 emptyStore
  exact ⟨h.2.2.2.2.2.2.2.2.2.1, h.2.2.2.2.2.2.2.2.2.2.1,
    h.2.2.2.2.2.2.2.2.2.2.2.1 "lcd" (by decide), h.2.2.2.2.2.2.2.2.2.2.2.2.1⟩
